import Mathlib

/-!
Verification of the scheduling and execution engine of the
summit-voice-ai-backend repository.

Shallow embedding of:
  * `app/agents/base.py` (`BaseAgent.run`, `_log`, `_update_last_run`, `is_enabled`),
  * `app/agents/registry.py` (`AGENT_CLASS_MAP`, `get_agent_class`),
  * `app/services/agent_scheduler.py` (`AgentScheduler._tick`,
    `_execute_agent`, `_compute_next_run`, `_log_scheduler_error`),
  * `app/api/routes/agents.py` (`run_agent_now`, `enable_agent`, `disable_agent`).

Timestamps are natural numbers (seconds); durations are reported in
milliseconds, mirroring `int((end - start).total_seconds() * 1000)`.
The database is a pair of lists: `agent_settings` rows and `agent_logs`
rows (the audit log, append-only).
-/

namespace Summit

/-- Model of a cron expression handed to `croniter`.  `everyNMinutes n`
stands for the expression `*/n * * * *`; `malformed s` stands for a
string `croniter` rejects. -/
inductive Cron where
  | everyNMinutes (n : Nat)
  | malformed (s : String)
deriving DecidableEq, Repr

/-- Model of `croniter(schedule_cron, from_dt).get_next(datetime)` for the
`*/n * * * *` family: the first multiple of `n` minutes strictly after the
base time.  A malformed expression (or `*/0`) raises inside `croniter`,
modelled as `none`. -/
def croniterNext : Cron → Nat → Option Nat
  | .everyNMinutes n, t => if n = 0 then none else some ((t / (n * 60) + 1) * (n * 60))
  | .malformed _, _ => none

/-- One row of the `agent_settings` table (model `AgentSetting`). -/
structure AgentSetting where
  agent_id : Nat
  agent_name : String
  is_enabled : Bool
  schedule_cron : Option Cron
  last_run_at : Option Nat
  next_run_at : Option Nat
deriving DecidableEq, Repr

/-- One row of the `agent_logs` table (model `AgentLog`), the
ExecutionRecord of the spec. -/
structure AgentLog where
  agent_id : Nat
  agent_name : String
  action : String
  status : String
  message : String
  error_details : Option String
  execution_time_ms : Option Nat
  meta : List (String × String)
deriving DecidableEq, Repr

/-- The database state visible to the engine: settings rows and the
append-only audit log. -/
structure DB where
  settings : List AgentSetting
  logs : List AgentLog
deriving DecidableEq, Repr

/-- `db.query(AgentSetting).filter(AgentSetting.agent_id == agent_id).first()`. -/
def DB.findSetting (db : DB) (agent_id : Nat) : Option AgentSetting :=
  db.settings.find? (fun s => s.agent_id == agent_id)

/-- Committed update of `next_run_at` on the row(s) keyed by `agent_id`. -/
def DB.setNextRun (db : DB) (agent_id : Nat) (t : Option Nat) : DB :=
  { db with settings :=
      db.settings.map (fun s => if s.agent_id == agent_id then { s with next_run_at := t } else s) }

/-- Committed update of `last_run_at` on the row(s) keyed by `agent_id`. -/
def DB.setLastRun (db : DB) (agent_id : Nat) (t : Option Nat) : DB :=
  { db with settings :=
      db.settings.map (fun s => if s.agent_id == agent_id then { s with last_run_at := t } else s) }

/-- Committed update of `is_enabled` on the row(s) keyed by `agent_id`. -/
def DB.setEnabled (db : DB) (agent_id : Nat) (b : Bool) : DB :=
  { db with settings :=
      db.settings.map (fun s => if s.agent_id == agent_id then { s with is_enabled := b } else s) }

/-- `db.add(log); db.commit()` on the audit log. -/
def DB.addLog (db : DB) (l : AgentLog) : DB :=
  { db with logs := db.logs ++ [l] }

/-- Nondeterminism oracle for database operations that `base.py` guards
with its own `try/except`: which internal commits raise. -/
structure DbOracle where
  logCommitFails : Bool
  lastRunCommitFails : Bool
  enabledQueryFails : Bool
deriving DecidableEq, Repr

/-- The dictionary an agent's `execute()` returns: `success` flag plus a
`data` map used as audit metadata. -/
structure AgentResult where
  success : Bool
  data : List (String × String)
deriving DecidableEq, Repr

/-- The dictionary `BaseAgent.run` returns: either the task's own result
passed through, the disabled short-circuit, or the structured failure
built in the `except` branch. -/
inductive RunResult where
  | taskResult (r : AgentResult)
  | disabledResult (message : String)
  | failureResult (error : String) (message : String)
deriving DecidableEq, Repr

/-- `bool(result.get("success", False))` on a `run()` result. -/
def RunResult.successFlag : RunResult → Bool
  | .taskResult r => r.success
  | .disabledResult _ => false
  | .failureResult _ _ => false

/-- `BaseAgent.is_enabled`: query the row; a query exception is caught and
reported as `False`; a missing row is `False`. -/
def isEnabled (o : DbOracle) (db : DB) (agent_id : Nat) : Bool :=
  if o.enabledQueryFails then false
  else
    match db.findSetting agent_id with
    | some s => s.is_enabled
    | none => false

/-- `BaseAgent._log`: append the record and commit; a commit exception is
caught and rolled back, leaving the log unchanged. -/
def logAgent (o : DbOracle) (db : DB) (l : AgentLog) : DB :=
  if o.logCommitFails then db else db.addLog l

/-- `BaseAgent._update_last_run`: set `last_run_at := utcnow` on the row if
present and commit; exceptions are caught and rolled back. -/
def updateLastRun (o : DbOracle) (db : DB) (agent_id : Nat) (now : Nat) : DB :=
  if o.lastRunCommitFails then db
  else
    match db.findSetting agent_id with
    | some _ => db.setLastRun agent_id (some now)
    | none => db

/-- `BaseAgent.run`.  `beh` is the behaviour of the abstract `execute()`
body: it returns a result dictionary or raises (`Except.error`).  The
return type is `Except`: an uncaught exception inside `run` would surface
as `.error`; the `try/except` in the source catches the only raising
operation (`execute()`), so both branches produce `.ok`. -/
def run (o : DbOracle) (agent_id : Nat) (agent_name : String) (tStart tEnd : Nat)
    (beh : Except String AgentResult) (db : DB) : Except String (DB × RunResult) :=
  if ¬ isEnabled o db agent_id then
    .ok (db, .disabledResult s!"Agent {agent_name} is disabled")
  else
    match beh with
    | .ok result =>
      let execution_time := (tEnd - tStart) * 1000
      let db1 := logAgent o db
        { agent_id := agent_id, agent_name := agent_name,
          action := "execute", status := "success",
          message := "Agent completed successfully",
          error_details := none,
          execution_time_ms := some execution_time,
          meta := result.data }
      let db2 := updateLastRun o db1 agent_id tEnd
      .ok (db2, .taskResult result)
    | .error e =>
      let execution_time := (tEnd - tStart) * 1000
      let db1 := logAgent o db
        { agent_id := agent_id, agent_name := agent_name,
          action := "execute", status := "error",
          message := s!"Agent failed: {e}",
          error_details := some e,
          execution_time_ms := some execution_time,
          meta := [] }
      .ok (db1, .failureResult e s!"Agent {agent_name} failed")

/-- What an agent class contributes at construction time: the hard-coded
`agent_id` and `agent_name` each concrete class passes to
`BaseAgent.__init__`. -/
structure AgentClass where
  agent_id : Nat
  agent_name : String
deriving DecidableEq, Repr

/-- `AGENT_CLASS_MAP` of `app/agents/registry.py`, with each class
replaced by the `(agent_id, agent_name)` pair its constructor uses. -/
def AGENT_CLASS_MAP : List (Nat × AgentClass) :=
  [ (1, ⟨1, "Lead Scraper"⟩),
    (2, ⟨2, "Lead Enricher"⟩),
    (3, ⟨3, "Outreach Sender"⟩),
    (4, ⟨6, "Follow-up Agent"⟩),
    (5, ⟨4, "Reply Monitor"⟩),
    (6, ⟨6, "Follow-up Agent"⟩),
    (7, ⟨7, "Pipeline Manager"⟩),
    (8, ⟨8, "Meeting Scheduler"⟩),
    (9, ⟨8, "Content Idea Generator"⟩),
    (10, ⟨9, "Post Drafter"⟩),
    (11, ⟨10, "Media Creator"⟩),
    (12, ⟨11, "Post Scheduler"⟩),
    (13, ⟨12, "Engagement Monitor"⟩),
    (14, ⟨13, "Comment Responder"⟩),
    (15, ⟨14, "Onboarding Coordinator"⟩),
    (16, ⟨15, "GHL Setup Agent"⟩),
    (17, ⟨16, "Training Scheduler"⟩),
    (18, ⟨17, "Check-in Agent"⟩),
    (19, ⟨18, "Support Ticket Handler"⟩),
    (20, ⟨19, "Performance Reporter"⟩),
    (21, ⟨22, "Daily Briefer"⟩),
    (22, ⟨22, "Cost Monitor"⟩),
    (23, ⟨23, "Task Coordinator"⟩),
    (24, ⟨24, "Anomaly Detector"⟩),
    (25, ⟨25, "Cost Optimizer"⟩),
    (26, ⟨26, "System Health Monitor"⟩),
    (27, ⟨26, "System Health Monitor"⟩) ]

/-- `get_agent_class`: dictionary lookup, `None` when absent. -/
def get_agent_class (agent_id : Nat) : Option AgentClass :=
  (AGENT_CLASS_MAP.find? (fun p => p.1 == agent_id)).map Prod.snd

/-- `AgentScheduler._compute_next_run`: `None` for a null expression;
`croniter` exceptions (malformed expression) are caught and yield `None`. -/
def compute_next_run (schedule_cron : Option Cron) (from_dt : Nat) : Option Nat :=
  match schedule_cron with
  | none => none
  | some c => croniterNext c from_dt

/-- The dueness test of `_tick`:
`setting.next_run_at is None or setting.next_run_at <= now`. -/
def shouldRun (s : AgentSetting) (now : Nat) : Bool :=
  match s.next_run_at with
  | none => true
  | some t => t ≤ now

/-- Observable steps of one `_tick`, in program order: the committed
`next_run_at` write, the `RunningSet` insertion, and the
`asyncio.create_task(self._execute_agent(agent_id))` dispatch. -/
inductive TickEvent where
  | persistNextRun (agent_id : Nat) (next : Option Nat)
  | addRunning (agent_id : Nat)
  | dispatch (agent_id : Nat)
deriving DecidableEq, Repr

/-- The `for setting in due_agents` loop body of `AgentScheduler._tick`,
walking the queried snapshot and threading the database, the
`_running_agent_ids` set and the emitted event trace. -/
def tickAux (now : Nat) : List AgentSetting → DB → List Nat → DB × List Nat × List TickEvent
  | [], db, running => (db, running, [])
  | s :: rest, db, running =>
    if s.agent_id ∈ running then tickAux now rest db running
    else if shouldRun s now then
      let next := compute_next_run s.schedule_cron now
      let res := tickAux now rest (db.setNextRun s.agent_id next) (s.agent_id :: running)
      (res.1, res.2.1,
        TickEvent.persistNextRun s.agent_id next :: TickEvent.addRunning s.agent_id ::
          TickEvent.dispatch s.agent_id :: res.2.2)
    else tickAux now rest db running

/-- `AgentScheduler._tick`: query the enabled rows that carry a cron
expression, then run the loop body over that snapshot. -/
def tick (now : Nat) (db : DB) (running : List Nat) : DB × List Nat × List TickEvent :=
  tickAux now (db.settings.filter (fun s => s.is_enabled && s.schedule_cron.isSome)) db running

/-- `AgentScheduler._log_scheduler_error`: append one scheduler-attributed
error record and commit. -/
def log_scheduler_error (db : DB) (agent_id : Nat) (agent_name : String) (message : String) : DB :=
  db.addLog
    { agent_id := agent_id, agent_name := agent_name,
      action := "scheduler_execute", status := "error",
      message := message, error_details := none,
      execution_time_ms := none, meta := [] }

/-- The `try/except` body of `AgentScheduler._execute_agent` (its effect on
the database).  `bookkeepingError = some e` models the final
`db.commit()` of the bookkeeping step raising `e`: the uncommitted
`last_run_at`/`next_run_at` writes are rolled back and the `except`
branch logs a scheduler error. -/
def executeAgentBody (o : DbOracle) (bookkeepingError : Option String)
    (agent_id : Nat) (tStart tEnd : Nat) (beh : Except String AgentResult) (db : DB) : DB :=
  match db.findSetting agent_id with
  | none => db
  | some setting =>
    if ¬ setting.is_enabled then db
    else
      match get_agent_class agent_id with
      | none =>
        log_scheduler_error db agent_id setting.agent_name
          s!"Agent class not registered for ID {agent_id}"
      | some cls =>
        match run o cls.agent_id cls.agent_name tStart tEnd beh db with
        | .error e =>
          log_scheduler_error db agent_id setting.agent_name
            s!"Scheduled execution failed: {e}"
        | .ok (db1, _result) =>
          match bookkeepingError with
          | none =>
            (db1.setLastRun agent_id (some tEnd)).setNextRun agent_id
              (compute_next_run setting.schedule_cron tEnd)
          | some e =>
            match db1.findSetting agent_id with
            | some s2 =>
              log_scheduler_error db1 agent_id s2.agent_name
                s!"Scheduled execution failed: {e}"
            | none => db1

/-- `AgentScheduler._execute_agent`: the `try/except` body followed by the
`finally` block, which discards the id from `_running_agent_ids` on every
path. -/
def executeAgent (o : DbOracle) (bookkeepingError : Option String)
    (agent_id : Nat) (tStart tEnd : Nat) (beh : Except String AgentResult)
    (db : DB) (running : List Nat) : DB × List Nat :=
  (executeAgentBody o bookkeepingError agent_id tStart tEnd beh db, running.erase agent_id)

/-- A FastAPI route outcome: either the returned payload or a raised
`HTTPException(status_code, detail)`. -/
inductive ApiResponse (α : Type) where
  | ok (value : α)
  | httpError (status_code : Nat) (detail : String)
deriving DecidableEq, Repr

/-- The payload of `run_agent_now`. -/
structure RunNowResponse where
  success : Bool
  agent_id : Nat
  agent_name : String
  result : RunResult
deriving DecidableEq, Repr

/-- The payload of `enable_agent` / `disable_agent`. -/
structure EnableResponse where
  success : Bool
  agent_id : Nat
  enabled : Bool
deriving DecidableEq, Repr

/-- `POST /agents/{agent_id}/run` (`run_agent_now`).  Websocket broadcasts
are external side effects with no database footprint and are elided.  An
exception escaping `agent.run()` would surface as a 500; `run` never
produces one. -/
def run_agent_now (o : DbOracle) (agent_id : Nat) (tStart tEnd : Nat)
    (beh : Except String AgentResult) (db : DB) : ApiResponse RunNowResponse × DB :=
  match db.findSetting agent_id with
  | none => (.httpError 404 "Agent not found", db)
  | some setting =>
    if ¬ setting.is_enabled then (.httpError 400 "Agent is disabled", db)
    else
      match get_agent_class agent_id with
      | none => (.httpError 501 s!"Agent {agent_id} is not registered", db)
      | some cls =>
        match run o cls.agent_id cls.agent_name tStart tEnd beh db with
        | .error e => (.httpError 500 e, db)
        | .ok (db1, result) =>
          (.ok { success := result.successFlag, agent_id := agent_id,
                 agent_name := setting.agent_name, result := result },
           db1.setLastRun agent_id (some tEnd))

/-- `POST /agents/{agent_id}/enable` (`enable_agent`). -/
def enable_agent (agent_id : Nat) (db : DB) : ApiResponse EnableResponse × DB :=
  match db.findSetting agent_id with
  | none => (.httpError 404 "Agent not found", db)
  | some _ =>
    (.ok { success := true, agent_id := agent_id, enabled := true },
     db.setEnabled agent_id true)

/-- `POST /agents/{agent_id}/disable` (`disable_agent`). -/
def disable_agent (agent_id : Nat) (db : DB) : ApiResponse EnableResponse × DB :=
  match db.findSetting agent_id with
  | none => (.httpError 404 "Agent not found", db)
  | some _ =>
    (.ok { success := true, agent_id := agent_id, enabled := false },
     db.setEnabled agent_id false)

/-! ### Concrete sample states used by witnesses and counterexamples -/

/-- Oracle on which every internal database commit succeeds. -/
def okOracle : DbOracle := ⟨false, false, false⟩

/-- An enabled, manual-only agent row (registered id 1). -/
def leadScraperRow : AgentSetting :=
  ⟨1, "Lead Scraper", true, none, none, none⟩

/-- Database holding only `leadScraperRow`, empty audit log. -/
def leadScraperDb : DB := ⟨[leadScraperRow], []⟩

/-- An enabled agent row with a malformed cron expression. -/
def malformedCronRow : AgentSetting :=
  ⟨1, "Lead Scraper", true, some (.malformed "not a cron"), none, none⟩

/-- Database holding only `malformedCronRow`, empty audit log. -/
def malformedCronDb : DB := ⟨[malformedCronRow], []⟩

/-- An enabled agent row (registered id 5) on an every-15-minutes cron,
never run. -/
def replyMonitorRow : AgentSetting :=
  ⟨5, "Reply Monitor", true, some (.everyNMinutes 15), none, none⟩

/-- Database holding only `replyMonitorRow`, empty audit log. -/
def replyMonitorDb : DB := ⟨[replyMonitorRow], []⟩

/-- An enabled agent row whose id 99 is absent from the registry, with a
valid cron and an overdue `next_run_at` (Scenario C of the spec). -/
def unregisteredRow : AgentSetting :=
  ⟨99, "Mystery Agent", true, some (.everyNMinutes 15), none, some 50⟩

/-- Database holding only `unregisteredRow`, empty audit log. -/
def unregisteredDb : DB := ⟨[unregisteredRow], []⟩

/-- A disabled agent row. -/
def disabledRow : AgentSetting :=
  ⟨2, "Lead Enricher", false, none, none, none⟩

/-- Database holding only `disabledRow`, empty audit log. -/
def disabledDb : DB := ⟨[disabledRow], []⟩

/-! ### Library of facts about the embedded operations -/

theorem addLog_settings (db : DB) (l : AgentLog) : (db.addLog l).settings = db.settings := rfl

theorem addLog_logs (db : DB) (l : AgentLog) : (db.addLog l).logs = db.logs ++ [l] := rfl

theorem setNextRun_logs (db : DB) (i : Nat) (v : Option Nat) :
    (db.setNextRun i v).logs = db.logs := rfl

/-- The per-row update function of `DB.setNextRun` keeps the key. -/
theorem nextRunUpdate_agent_id (i : Nat) (v : Option Nat) (s : AgentSetting) :
    (if s.agent_id == i then { s with next_run_at := v } else s).agent_id = s.agent_id := by
  by_cases h : (s.agent_id == i) = true <;> simp [h]

/-- `List.find?` only depends on the pointwise behaviour of its
predicate. -/
theorem find?_ext {α : Type} (p q : α → Bool) (h : ∀ a, p a = q a) :
    ∀ l : List α, l.find? p = l.find? q
  | [] => rfl
  | a :: l => by
    simp only [List.find?]
    rw [h a]
    cases q a <;> simp [find?_ext p q h l]

/-- Updating `next_run_at` of the row keyed `i` rewrites the row
`findSetting` returns for `i`. -/
theorem findSetting_setNextRun_self {db : DB} {i : Nat} {s : AgentSetting} (v : Option Nat)
    (h : db.findSetting i = some s) :
    (db.setNextRun i v).findSetting i = some { s with next_run_at := v } := by
  have h' : db.settings.find? (fun s2 => s2.agent_id == i) = some s := h
  have hp : (s.agent_id == i) = true :=
    @List.find?_some AgentSetting (fun s2 => s2.agent_id == i) s db.settings h'
  have hp' : s.agent_id = i := by simpa using hp
  simp only [DB.findSetting, DB.setNextRun]
  rw [List.find?_map]
  rw [find?_ext _ (fun s2 : AgentSetting => s2.agent_id == i)
    (fun s2 => by simp only [Function.comp]; rw [nextRunUpdate_agent_id]) db.settings]
  rw [h']
  simp [hp']

/-- Updating `next_run_at` of a different id leaves `findSetting i`
unchanged. -/
theorem findSetting_setNextRun_ne {i j : Nat} (hne : i ≠ j) (db : DB) (v : Option Nat) :
    (db.setNextRun j v).findSetting i = db.findSetting i := by
  simp only [DB.findSetting, DB.setNextRun]
  rw [List.find?_map]
  rw [find?_ext _ (fun s2 : AgentSetting => s2.agent_id == i)
    (fun s2 => by simp only [Function.comp]; rw [nextRunUpdate_agent_id]) db.settings]
  cases h : db.settings.find? (fun s2 => s2.agent_id == i) with
  | none => rfl
  | some s =>
    have hp : (s.agent_id == i) = true :=
      @List.find?_some AgentSetting (fun s2 => s2.agent_id == i) s db.settings h
    have hpj : s.agent_id ≠ j := by
      have : s.agent_id = i := by simpa using hp
      simp [this, hne]
    simp [hpj]

/-- The tick loop never touches the audit log. -/
theorem tickAux_logs (now : Nat) :
    ∀ (l : List AgentSetting) (db : DB) (running : List Nat),
      (tickAux now l db running).1.logs = db.logs
  | [], _, _ => rfl
  | s :: rest, db, running => by
    simp only [tickAux]
    split
    · exact tickAux_logs now rest db running
    · split
      · exact tickAux_logs now rest _ _
      · exact tickAux_logs now rest db running

/-- The `RunningSet` only grows during a tick. -/
theorem tickAux_running_mono (now : Nat) :
    ∀ (l : List AgentSetting) (db : DB) (running : List Nat) (a : Nat),
      a ∈ running → a ∈ (tickAux now l db running).2.1
  | [], _, _, _, ha => ha
  | s :: rest, db, running, a, ha => by
    simp only [tickAux]
    split
    · exact tickAux_running_mono now rest db running a ha
    · split
      · exact tickAux_running_mono now rest _ _ a (List.mem_cons_of_mem _ ha)
      · exact tickAux_running_mono now rest db running a ha

/-- A task id already in the `RunningSet` is never dispatched by the
tick. -/
theorem tickAux_no_dispatch_of_running (now : Nat) :
    ∀ (l : List AgentSetting) (db : DB) (running : List Nat) (a : Nat),
      a ∈ running → TickEvent.dispatch a ∉ (tickAux now l db running).2.2
  | [], _, _, _, _ => by simp [tickAux]
  | s :: rest, db, running, a, ha => by
    simp only [tickAux]
    split
    · exact tickAux_no_dispatch_of_running now rest db running a ha
    · rename_i hrun
      split
      · intro hmem
        simp only [List.mem_cons] at hmem
        rcases hmem with h | h | h | h
        · exact TickEvent.noConfusion h
        · exact TickEvent.noConfusion h
        · have : a = s.agent_id := by injection h
          exact hrun (this ▸ ha)
        · exact tickAux_no_dispatch_of_running now rest _ _ a
            (List.mem_cons_of_mem _ ha) h
      · exact tickAux_no_dispatch_of_running now rest db running a ha

/-- Every id the tick dispatches is in the `RunningSet` when the tick
returns. -/
theorem tickAux_dispatch_mem_running (now : Nat) :
    ∀ (l : List AgentSetting) (db : DB) (running : List Nat) (a : Nat),
      TickEvent.dispatch a ∈ (tickAux now l db running).2.2 →
      a ∈ (tickAux now l db running).2.1
  | [], _, _, _, h => by simp [tickAux] at h
  | s :: rest, db, running, a, h => by
    simp only [tickAux] at h ⊢
    by_cases h1 : s.agent_id ∈ running
    · rw [if_pos h1] at h ⊢
      exact tickAux_dispatch_mem_running now rest db running a h
    · rw [if_neg h1] at h ⊢
      by_cases h2 : shouldRun s now = true
      · rw [if_pos h2] at h ⊢
        dsimp only at h ⊢
        simp only [List.mem_cons] at h
        rcases h with h | h | h | h
        · exact TickEvent.noConfusion h
        · exact TickEvent.noConfusion h
        · have ha : a = s.agent_id := by injection h
          rw [ha]
          exact tickAux_running_mono now rest _ _ s.agent_id (List.mem_cons_self _ _)
        · exact tickAux_dispatch_mem_running now rest _ _ a h
      · rw [if_neg h2] at h ⊢
        exact tickAux_dispatch_mem_running now rest db running a h

/-- Every dispatch in a tick trace is immediately preceded by the
committed `next_run_at` write and the `RunningSet` insertion for the same
id, in that order. -/
theorem tickAux_dispatch_decomp (now : Nat) :
    ∀ (l : List AgentSetting) (db : DB) (running : List Nat) (a : Nat),
      TickEvent.dispatch a ∈ (tickAux now l db running).2.2 →
      ∃ pre suf v, (tickAux now l db running).2.2 =
        pre ++ TickEvent.persistNextRun a v :: TickEvent.addRunning a ::
          TickEvent.dispatch a :: suf
  | [], _, _, _, h => by simp [tickAux] at h
  | s :: rest, db, running, a, h => by
    simp only [tickAux] at h ⊢
    by_cases h1 : s.agent_id ∈ running
    · rw [if_pos h1] at h ⊢
      exact tickAux_dispatch_decomp now rest db running a h
    · rw [if_neg h1] at h ⊢
      by_cases h2 : shouldRun s now = true
      · rw [if_pos h2] at h ⊢
        dsimp only at h ⊢
        simp only [List.mem_cons] at h
        by_cases has : a = s.agent_id
        · rw [has]
          exact ⟨[], (tickAux now rest (db.setNextRun s.agent_id
              (compute_next_run s.schedule_cron now)) (s.agent_id :: running)).2.2,
            compute_next_run s.schedule_cron now, rfl⟩
        · have h' : TickEvent.dispatch a ∈ (tickAux now rest (db.setNextRun s.agent_id
              (compute_next_run s.schedule_cron now)) (s.agent_id :: running)).2.2 := by
            rcases h with h | h | h | h
            · exact absurd h (by simp)
            · exact absurd h (by simp)
            · exact absurd (by injection h) has
            · exact h
          obtain ⟨pre, suf, v, heq⟩ := tickAux_dispatch_decomp now rest _ _ a h'
          exact ⟨TickEvent.persistNextRun s.agent_id (compute_next_run s.schedule_cron now) ::
              TickEvent.addRunning s.agent_id :: TickEvent.dispatch s.agent_id :: pre,
            suf, v, by simp [heq]⟩
      · rw [if_neg h2] at h ⊢
        exact tickAux_dispatch_decomp now rest db running a h

/-- A tick leaves untouched the rows of every id that does not occur in
the processed snapshot. -/
theorem tickAux_findSetting_notin (now : Nat) :
    ∀ (l : List AgentSetting) (db : DB) (running : List Nat) (a : Nat),
      (∀ s2 ∈ l, s2.agent_id ≠ a) →
      (tickAux now l db running).1.findSetting a = db.findSetting a
  | [], _, _, _, _ => rfl
  | s :: rest, db, running, a, hni => by
    have hs : s.agent_id ≠ a := hni s (List.mem_cons_self _ _)
    have hrest : ∀ s2 ∈ rest, s2.agent_id ≠ a :=
      fun s2 h2 => hni s2 (List.mem_cons_of_mem _ h2)
    simp only [tickAux]
    split
    · exact tickAux_findSetting_notin now rest db running a hrest
    · split
      · rw [tickAux_findSetting_notin now rest _ _ a hrest]
        exact findSetting_setNextRun_ne (fun h => hs h.symm) db _
      · exact tickAux_findSetting_notin now rest db running a hrest

/-- The core dispatch lemma: a due, enabled, not-running task with
pairwise-distinct snapshot ids is dispatched by the tick, its trace
carries the `next_run_at` commit (computed from `now`) immediately before
the dispatch, and the final database holds that committed value. -/
theorem tickAux_due_dispatch (now : Nat) :
    ∀ (l : List AgentSetting) (db : DB) (running : List Nat) (s : AgentSetting),
      l.Pairwise (fun s1 s2 => s1.agent_id ≠ s2.agent_id) →
      s ∈ l →
      db.findSetting s.agent_id = some s →
      s.agent_id ∉ running →
      shouldRun s now = true →
      (∃ pre suf, (tickAux now l db running).2.2 =
          pre ++ TickEvent.persistNextRun s.agent_id (compute_next_run s.schedule_cron now) ::
            TickEvent.addRunning s.agent_id :: TickEvent.dispatch s.agent_id :: suf) ∧
      (tickAux now l db running).1.findSetting s.agent_id =
        some { s with next_run_at := compute_next_run s.schedule_cron now }
  | [], _, _, _, _, hmem, _, _, _ => absurd hmem (List.not_mem_nil _)
  | a :: rest, db, running, s, hpair, hmem, hfind, hrun, hdue => by
    rw [List.pairwise_cons] at hpair
    obtain ⟨hhead, hrest⟩ := hpair
    rcases List.mem_cons.mp hmem with heq | hmems
    · subst heq
      simp only [tickAux]
      rw [if_neg hrun, if_pos hdue]
      constructor
      · exact ⟨[], (tickAux now rest (db.setNextRun s.agent_id
          (compute_next_run s.schedule_cron now)) (s.agent_id :: running)).2.2, rfl⟩
      · have hni : ∀ s2 ∈ rest, s2.agent_id ≠ s.agent_id :=
          fun s2 h2 => (hhead s2 h2).symm
        rw [tickAux_findSetting_notin now rest _ _ s.agent_id hni]
        exact findSetting_setNextRun_self _ hfind
    · have hne : a.agent_id ≠ s.agent_id := hhead s hmems
      simp only [tickAux]
      split
      · exact tickAux_due_dispatch now rest db running s hrest hmems hfind hrun hdue
      · split
        · have hfind2 : (db.setNextRun a.agent_id
              (compute_next_run a.schedule_cron now)).findSetting s.agent_id = some s := by
            rw [findSetting_setNextRun_ne hne.symm db _]
            exact hfind
          have hrun2 : s.agent_id ∉ a.agent_id :: running := by
            simp only [List.mem_cons]
            rintro (h | h)
            · exact hne h.symm
            · exact hrun h
          obtain ⟨⟨pre, suf, heq⟩, hdb⟩ :=
            tickAux_due_dispatch now rest _ _ s hrest hmems hfind2 hrun2 hdue
          refine ⟨⟨TickEvent.persistNextRun a.agent_id (compute_next_run a.schedule_cron now) ::
              TickEvent.addRunning a.agent_id :: TickEvent.dispatch a.agent_id :: pre,
            suf, by simp [heq]⟩, hdb⟩
        · exact tickAux_due_dispatch now rest db running s hrest hmems hfind hrun hdue

/-- For a well-formed `*/n` expression, `croniterNext` is the next
`n`-minute boundary strictly after the base. -/
theorem croniterNext_everyN {n : Nat} (hn : n ≠ 0) (t : Nat) :
    croniterNext (.everyNMinutes n) t = some ((t / (n * 60) + 1) * (n * 60)) := by
  simp [croniterNext, hn]

/-- A successful `croniter.get_next` result is strictly after its base
time. -/
theorem croniterNext_gt {c : Cron} {t u : Nat} (h : croniterNext c t = some u) : t < u := by
  cases c with
  | everyNMinutes n =>
    simp only [croniterNext] at h
    split at h
    · exact absurd h (by simp)
    · rename_i hn
      injection h with h
      subst h
      have hm : 0 < n * 60 := by
        have := Nat.pos_of_ne_zero hn
        omega
      have h1 := Nat.div_add_mod t (n * 60)
      have h2 := Nat.mod_lt t hm
      nlinarith [Nat.div_mul_le_self t (n * 60)]
  | malformed s => simp [croniterNext] at h

/-- The `*/n` result is the least `n`-minute boundary strictly after the
base time. -/
theorem croniterNext_least {n t u v : Nat} (hn : n ≠ 0)
    (hv : croniterNext (.everyNMinutes n) t = some v)
    (ht : t < u) (hu : u % (n * 60) = 0) : v ≤ u := by
  simp only [croniterNext, if_neg hn] at hv
  injection hv with hv
  subst hv
  by_contra hlt
  push_neg at hlt
  have hm : 0 < n * 60 := by
    have := Nat.pos_of_ne_zero hn
    omega
  have hdvd : (n * 60) ∣ u := Nat.dvd_of_mod_eq_zero hu
  have hueq : u / (n * 60) * (n * 60) = u := Nat.div_mul_cancel hdvd
  rw [← hueq] at hlt
  have hq : u / (n * 60) < t / (n * 60) + 1 := Nat.lt_of_mul_lt_mul_right hlt
  have hle : u / (n * 60) ≤ t / (n * 60) := by omega
  have hut : u ≤ t :=
    calc u = u / (n * 60) * (n * 60) := hueq.symm
      _ ≤ t / (n * 60) * (n * 60) := Nat.mul_le_mul_right _ hle
      _ ≤ t := Nat.div_mul_le_self t (n * 60)
  omega

/-! ### The claims -/

/-- C1: Mutual exclusion of scheduler-originated dispatches.
(i) A tick skips any task id already in the RunningSet: no dispatch event
for it is emitted.  (ii) Every id a tick dispatches is in the RunningSet
when the tick returns, and the insertion appears in the trace immediately
before the dispatch.  (iii) `_execute_agent` removes the id from the
RunningSet when it completes, whatever the outcome.  Hence the scheduler
never has two concurrent executions of the same task id in flight. -/
theorem c1_scheduler_mutual_exclusion (now : Nat) (db : DB) (running : List Nat) :
    (∀ a, a ∈ running → TickEvent.dispatch a ∉ (tick now db running).2.2) ∧
    (∀ a, TickEvent.dispatch a ∈ (tick now db running).2.2 →
      a ∈ (tick now db running).2.1 ∧
      ∃ pre suf v, (tick now db running).2.2 =
        pre ++ TickEvent.persistNextRun a v :: TickEvent.addRunning a ::
          TickEvent.dispatch a :: suf) ∧
    (∀ (o : DbOracle) (bk : Option String) (a tS tE : Nat)
        (beh : Except String AgentResult) (db2 : DB) (r : List Nat),
      (executeAgent o bk a tS tE beh db2 r).2 = r.erase a) := by
  refine ⟨?_, ?_, ?_⟩
  · intro a ha
    exact tickAux_no_dispatch_of_running now _ db running a ha
  · intro a hd
    exact ⟨tickAux_dispatch_mem_running now _ db running a hd,
      tickAux_dispatch_decomp now _ db running a hd⟩
  · intro o bk a tS tE beh db2 r
    rfl

/-- Witness for C1: with agent 5 already in the RunningSet the tick at
time 0 does not dispatch it; a tick starting from an empty RunningSet
does dispatch it and records it as running; a completed execution removes
it again. -/
theorem c1_scheduler_mutual_exclusion_witness :
    TickEvent.dispatch 5 ∉ (tick 0 replyMonitorDb [5]).2.2 ∧
    5 ∈ (tick 1000 replyMonitorDb []).2.1 ∧
    (executeAgent okOracle none 5 1000 1060 (.ok ⟨true, []⟩) replyMonitorDb [5]).2 = [] := by
  refine ⟨(c1_scheduler_mutual_exclusion 0 replyMonitorDb [5]).1 5 (by decide), ?_, ?_⟩
  · exact ((c1_scheduler_mutual_exclusion 1000 replyMonitorDb []).2.1 5 (by decide)).1
  · rw [(c1_scheduler_mutual_exclusion 1000 replyMonitorDb []).2.2 okOracle none 5 1000 1060
      (.ok ⟨true, []⟩) replyMonitorDb [5]]
    decide

/-- C2 counterexample: agent 1 is enabled with `last_run_at = none` and
its body raises "boom".  `run` writes the single error record and returns
the structured failure, but the settings row is returned unchanged:
`last_run_at` is still `none`, not updated — contradicting the claim that
a failing `run()` still updates `last_run_at`. -/
theorem c2_counterexample :
    run okOracle 1 "Lead Scraper" 100 102 (.error "boom") leadScraperDb =
      .ok ({ settings := [leadScraperRow],
             logs := [{ agent_id := 1, agent_name := "Lead Scraper", action := "execute",
                        status := "error", message := "Agent failed: boom",
                        error_details := some "boom", execution_time_ms := some 2000,
                        meta := [] }] },
           .failureResult "boom" "Agent Lead Scraper failed") ∧
    leadScraperRow.last_run_at = none :=
  ⟨rfl, rfl⟩

/-- C2 (amended): for every enabled task whose `execute()` raises, `run`
writes exactly one ExecutionRecord with `status = error`, carrying
`error_details = str(exception)` and the measured duration, and returns
the structured failure result — but it leaves the settings rows (hence
`last_run_at`) unchanged: only the success path updates `last_run_at`. -/
theorem c2_failure_containment (o : DbOracle) (ho : o.logCommitFails = false)
    (agent_id : Nat) (agent_name : String) (tStart tEnd : Nat) (e : String) (db : DB)
    (hen : isEnabled o db agent_id = true) :
    ∃ rec : AgentLog,
      rec.status = "error" ∧
      rec.error_details = some e ∧
      rec.execution_time_ms = some ((tEnd - tStart) * 1000) ∧
      run o agent_id agent_name tStart tEnd (.error e) db =
        .ok (db.addLog rec, .failureResult e s!"Agent {agent_name} failed") ∧
      (db.addLog rec).logs = db.logs ++ [rec] ∧
      (db.addLog rec).settings = db.settings := by
  refine ⟨{ agent_id := agent_id, agent_name := agent_name, action := "execute",
            status := "error", message := s!"Agent failed: {e}",
            error_details := some e, execution_time_ms := some ((tEnd - tStart) * 1000),
            meta := [] }, rfl, rfl, rfl, ?_, rfl, rfl⟩
  simp [run, hen, logAgent, ho]

/-- Witness for C2 (amended) at agent 1, body raising "boom". -/
theorem c2_failure_containment_witness :
    ∃ rec : AgentLog,
      rec.status = "error" ∧
      rec.error_details = some "boom" ∧
      rec.execution_time_ms = some ((102 - 100) * 1000) ∧
      run okOracle 1 "Lead Scraper" 100 102 (.error "boom") leadScraperDb =
        .ok (leadScraperDb.addLog rec, .failureResult "boom" s!"Agent Lead Scraper failed") ∧
      (leadScraperDb.addLog rec).logs = leadScraperDb.logs ++ [rec] ∧
      (leadScraperDb.addLog rec).settings = leadScraperDb.settings :=
  c2_failure_containment okOracle rfl 1 "Lead Scraper" 100 102 "boom" leadScraperDb (by decide)

/-- C3: skip-missed catch-up.  For a due, enabled, not-running task on a
valid `*/n`-minute cron, the tick computes the new `next_run_at` from
`now` — the least `n`-minute boundary strictly after `now`, irrespective
of the missed `next_run_at` — and commits it to the database immediately
before the dispatch event, which the final database state reflects. -/
theorem c3_skip_missed_catchup (now n : Nat) (db : DB) (running : List Nat) (s : AgentSetting)
    (hpair : db.settings.Pairwise (fun s1 s2 => s1.agent_id ≠ s2.agent_id))
    (hfind : db.findSetting s.agent_id = some s)
    (hen : s.is_enabled = true)
    (hcron : s.schedule_cron = some (.everyNMinutes n))
    (hn : n ≠ 0)
    (hdue : shouldRun s now = true)
    (hrun : s.agent_id ∉ running) :
    (∃ pre suf, (tick now db running).2.2 =
        pre ++ TickEvent.persistNextRun s.agent_id (some ((now / (n * 60) + 1) * (n * 60))) ::
          TickEvent.addRunning s.agent_id :: TickEvent.dispatch s.agent_id :: suf) ∧
    (tick now db running).1.findSetting s.agent_id =
      some { s with next_run_at := some ((now / (n * 60) + 1) * (n * 60)) } ∧
    now < (now / (n * 60) + 1) * (n * 60) ∧
    ((now / (n * 60) + 1) * (n * 60)) % (n * 60) = 0 ∧
    (∀ u, now < u → u % (n * 60) = 0 → (now / (n * 60) + 1) * (n * 60) ≤ u) := by
  have hmem : s ∈ db.settings :=
    @List.mem_of_find?_eq_some AgentSetting (fun s2 => s2.agent_id == s.agent_id) _ db.settings hfind
  have hfil : s ∈ db.settings.filter (fun s2 => s2.is_enabled && s2.schedule_cron.isSome) := by
    rw [List.mem_filter]
    exact ⟨hmem, by simp [hen, hcron]⟩
  have hval : compute_next_run s.schedule_cron now = some ((now / (n * 60) + 1) * (n * 60)) := by
    rw [hcron]
    exact croniterNext_everyN hn now
  obtain ⟨htr, hdb⟩ := tickAux_due_dispatch now _ db running s (hpair.filter _) hfil hfind hrun hdue
  rw [hval] at htr hdb
  refine ⟨htr, hdb, ?_, Nat.mul_mod_left _ _, ?_⟩
  · exact croniterNext_gt (croniterNext_everyN hn now)
  · intro u hu1 hu2
    exact croniterNext_least hn (croniterNext_everyN hn now) hu1 hu2

/-- Witness for C3: agent 5 on `*/15 * * * *`, never run, at time 1000:
the tick persists `next_run_at = 1800` (the next 15-minute boundary)
before dispatching. -/
theorem c3_skip_missed_catchup_witness :
    (∃ pre suf, (tick 1000 replyMonitorDb []).2.2 =
        pre ++ TickEvent.persistNextRun 5 (some ((1000 / (15 * 60) + 1) * (15 * 60))) ::
          TickEvent.addRunning 5 :: TickEvent.dispatch 5 :: suf) ∧
    (tick 1000 replyMonitorDb []).1.findSetting 5 =
      some { replyMonitorRow with next_run_at := some ((1000 / (15 * 60) + 1) * (15 * 60)) } ∧
    1000 < (1000 / (15 * 60) + 1) * (15 * 60) ∧
    ((1000 / (15 * 60) + 1) * (15 * 60)) % (15 * 60) = 0 ∧
    (∀ u, 1000 < u → u % (15 * 60) = 0 → (1000 / (15 * 60) + 1) * (15 * 60) ≤ u) :=
  c3_skip_missed_catchup 1000 15 replyMonitorDb [] replyMonitorRow
    (by decide) (by decide) (by decide) (by decide) (by decide) (by decide) (by decide)

/-- C4 counterexample: agent 1 is enabled with a malformed cron.  The
tick at time 100 dispatches it — it is not excluded from ticking — and
after that execution completes the tick at time 200 dispatches it again;
moreover zero (not one) scheduler-error ExecutionRecords exist
afterwards.  This contradicts both halves of the claim. -/
theorem c4_counterexample :
    TickEvent.dispatch 1 ∈ (tick 100 malformedCronDb []).2.2 ∧
    TickEvent.dispatch 1 ∈
      (tick 200 (executeAgent okOracle none 1 100 101 (.ok ⟨true, []⟩)
        (tick 100 malformedCronDb []).1 (tick 100 malformedCronDb []).2.1).1 []).2.2 ∧
    ((executeAgent okOracle none 1 100 101 (.ok ⟨true, []⟩)
        (tick 100 malformedCronDb []).1 (tick 100 malformedCronDb []).2.1).1.logs.filter
      (fun l => l.action == "scheduler_execute")).length = 0 := by
  decide

/-- C4 (amended): for every enabled task whose cron expression is
malformed, a due tick still dispatches it and persists
`next_run_at = none`, so the task is due again on every subsequent tick
(it is re-dispatched whenever it is not currently running) rather than
excluded, and the tick writes no ExecutionRecord at all for the malformed
cron — neither one in total nor one per tick. -/
theorem c4_malformed_cron_degradation (now : Nat) (db : DB) (running : List Nat)
    (s : AgentSetting) (c : Cron)
    (hpair : db.settings.Pairwise (fun s1 s2 => s1.agent_id ≠ s2.agent_id))
    (hfind : db.findSetting s.agent_id = some s)
    (hen : s.is_enabled = true)
    (hcron : s.schedule_cron = some c)
    (hbad : ∀ u, croniterNext c u = none)
    (hdue : shouldRun s now = true)
    (hrun : s.agent_id ∉ running) :
    (∃ pre suf, (tick now db running).2.2 =
        pre ++ TickEvent.persistNextRun s.agent_id none ::
          TickEvent.addRunning s.agent_id :: TickEvent.dispatch s.agent_id :: suf) ∧
    (tick now db running).1.findSetting s.agent_id = some { s with next_run_at := none } ∧
    (tick now db running).1.logs = db.logs ∧
    (∀ s2, (tick now db running).1.findSetting s.agent_id = some s2 →
      ∀ now2, shouldRun s2 now2 = true) := by
  have hmem : s ∈ db.settings :=
    @List.mem_of_find?_eq_some AgentSetting (fun s2 => s2.agent_id == s.agent_id) _ db.settings hfind
  have hfil : s ∈ db.settings.filter (fun s2 => s2.is_enabled && s2.schedule_cron.isSome) := by
    rw [List.mem_filter]
    exact ⟨hmem, by simp [hen, hcron]⟩
  have hval : compute_next_run s.schedule_cron now = none := by
    rw [hcron]
    exact hbad now
  obtain ⟨htr, hdb⟩ := tickAux_due_dispatch now _ db running s (hpair.filter _) hfil hfind hrun hdue
  rw [hval] at htr hdb
  refine ⟨htr, hdb, tickAux_logs now _ db running, ?_⟩
  intro s2 hs2 now2
  simp only [tick] at hs2
  rw [hdb] at hs2
  injection hs2 with hs2
  rw [← hs2]
  rfl

/-- Witness for C4 (amended) at agent 1 with cron "not a cron", tick at
time 100. -/
theorem c4_malformed_cron_degradation_witness :
    (∃ pre suf, (tick 100 malformedCronDb []).2.2 =
        pre ++ TickEvent.persistNextRun 1 none ::
          TickEvent.addRunning 1 :: TickEvent.dispatch 1 :: suf) ∧
    (tick 100 malformedCronDb []).1.findSetting 1 =
      some { malformedCronRow with next_run_at := none } ∧
    (tick 100 malformedCronDb []).1.logs = malformedCronDb.logs ∧
    (∀ s2, (tick 100 malformedCronDb []).1.findSetting 1 = some s2 →
      ∀ now2, shouldRun s2 now2 = true) :=
  c4_malformed_cron_degradation 100 malformedCronDb [] malformedCronRow
    (.malformed "not a cron") (by decide) (by decide) (by decide) (by decide)
    (fun u => rfl) (by decide) (by decide)

/-- C5 counterexample: at time 100 the scheduler dispatches agent 1 whose
cron is malformed, and the `next_run_at` persisted at dispatch time is
`none` — not a value strictly later than 100. -/
theorem c5_counterexample :
    (tick 100 malformedCronDb []).2.2 =
      [TickEvent.persistNextRun 1 none, TickEvent.addRunning 1, TickEvent.dispatch 1] ∧
    ((tick 100 malformedCronDb []).1.findSetting 1).map AgentSetting.next_run_at =
      some none := by
  decide

/-- C5 (amended): for every task the scheduler dispatches whose cron
expression is valid at dispatch time (croniter yields a next time `t`),
the `next_run_at` persisted at dispatch is `some t` with `now < t`, so
the task is not immediately due again; when the cron is malformed the
dispatch persists `none` instead (see the C4 analysis). -/
theorem c5_monotonic_scheduling (now t : Nat) (db : DB) (running : List Nat)
    (s : AgentSetting) (c : Cron)
    (hpair : db.settings.Pairwise (fun s1 s2 => s1.agent_id ≠ s2.agent_id))
    (hfind : db.findSetting s.agent_id = some s)
    (hen : s.is_enabled = true)
    (hcron : s.schedule_cron = some c)
    (hvalid : croniterNext c now = some t)
    (hdue : shouldRun s now = true)
    (hrun : s.agent_id ∉ running) :
    (∃ pre suf, (tick now db running).2.2 =
        pre ++ TickEvent.persistNextRun s.agent_id (some t) ::
          TickEvent.addRunning s.agent_id :: TickEvent.dispatch s.agent_id :: suf) ∧
    (tick now db running).1.findSetting s.agent_id = some { s with next_run_at := some t } ∧
    now < t := by
  have hmem : s ∈ db.settings :=
    @List.mem_of_find?_eq_some AgentSetting (fun s2 => s2.agent_id == s.agent_id) _ db.settings hfind
  have hfil : s ∈ db.settings.filter (fun s2 => s2.is_enabled && s2.schedule_cron.isSome) := by
    rw [List.mem_filter]
    exact ⟨hmem, by simp [hen, hcron]⟩
  have hval : compute_next_run s.schedule_cron now = some t := by
    rw [hcron]
    exact hvalid
  obtain ⟨htr, hdb⟩ := tickAux_due_dispatch now _ db running s (hpair.filter _) hfil hfind hrun hdue
  rw [hval] at htr hdb
  exact ⟨htr, hdb, croniterNext_gt hvalid⟩

/-- Witness for C5 (amended): agent 5 on `*/15 * * * *` at time 1000 gets
`next_run_at = 1800 > 1000` persisted at dispatch. -/
theorem c5_monotonic_scheduling_witness :
    (∃ pre suf, (tick 1000 replyMonitorDb []).2.2 =
        pre ++ TickEvent.persistNextRun 5 (some 1800) ::
          TickEvent.addRunning 5 :: TickEvent.dispatch 5 :: suf) ∧
    (tick 1000 replyMonitorDb []).1.findSetting 5 =
      some { replyMonitorRow with next_run_at := some 1800 } ∧
    1000 < 1800 :=
  c5_monotonic_scheduling 1000 1800 replyMonitorDb [] replyMonitorRow
    (.everyNMinutes 15) (by decide) (by decide) (by decide) (by decide)
    (by decide) (by decide) (by decide)

/-- C6: disabled-task short-circuit.  When the stored row for the id is
disabled — or there is no row at all — `run` returns the "disabled"
result (whose success flag is `false`) immediately with the database
untouched: zero ExecutionRecords are written.  This holds for every
oracle, including ones on which the enablement query itself raises. -/
theorem c6_disabled_short_circuit (o : DbOracle) (agent_id : Nat) (agent_name : String)
    (tStart tEnd : Nat) (beh : Except String AgentResult) (db : DB)
    (hdis : ∀ s, db.findSetting agent_id = some s → s.is_enabled = false) :
    run o agent_id agent_name tStart tEnd beh db =
      .ok (db, .disabledResult s!"Agent {agent_name} is disabled") ∧
    RunResult.successFlag (.disabledResult s!"Agent {agent_name} is disabled") = false := by
  have hen : isEnabled o db agent_id = false := by
    unfold isEnabled
    split
    · rfl
    · cases h : db.findSetting agent_id with
      | none => rfl
      | some s => exact hdis s h
  exact ⟨by simp [run, hen], rfl⟩

/-- Witness for C6: the disabled agent 2, and (second application) the
missing id 42, both short-circuit without touching the database. -/
theorem c6_disabled_short_circuit_witness :
    (run okOracle 2 "Lead Enricher" 0 5 (.ok ⟨true, []⟩) disabledDb =
      .ok (disabledDb, .disabledResult s!"Agent Lead Enricher is disabled") ∧
     RunResult.successFlag (.disabledResult s!"Agent Lead Enricher is disabled") = false) ∧
    (run okOracle 42 "Ghost" 0 5 (.error "boom") disabledDb =
      .ok (disabledDb, .disabledResult s!"Agent Ghost is disabled") ∧
     RunResult.successFlag (.disabledResult s!"Agent Ghost is disabled") = false) :=
  ⟨c6_disabled_short_circuit okOracle 2 "Lead Enricher" 0 5 (.ok ⟨true, []⟩) disabledDb
      (by decide),
   c6_disabled_short_circuit okOracle 42 "Ghost" 0 5 (.error "boom") disabledDb
      (by decide)⟩

/-- C7: exception totality of the wrapper.  For every oracle, timing, task
identity, database state and behaviour of the task body — including a
raising one — `run` returns `.ok` with a result dictionary: no exception
propagates to the caller. -/
theorem c7_run_never_propagates (o : DbOracle) (agent_id : Nat) (agent_name : String)
    (tStart tEnd : Nat) (beh : Except String AgentResult) (db : DB) :
    ∃ p : DB × RunResult, run o agent_id agent_name tStart tEnd beh db = .ok p := by
  unfold run
  split
  · exact ⟨_, rfl⟩
  · cases beh with
    | ok r => exact ⟨_, rfl⟩
    | error e => exact ⟨_, rfl⟩

/-- C8: unregistered-task dispatch (Scenario C).  Registry resolution for
an id outside the map is the explicit value `none` (the total function
`get_agent_class` never throws); dispatching such an enabled task appends
exactly one scheduler-attributed ExecutionRecord (`action =
scheduler_execute`, `status = error`, message naming the unregistered
id); and a due tick still advances the task's `next_run_at` to the cron's
next time. -/
theorem c8_unregistered_dispatch (o : DbOracle) (bk : Option String)
    (now t tStart tEnd : Nat) (beh : Except String AgentResult)
    (db : DB) (running : List Nat) (s : AgentSetting) (c : Cron)
    (hpair : db.settings.Pairwise (fun s1 s2 => s1.agent_id ≠ s2.agent_id))
    (hfind : db.findSetting s.agent_id = some s)
    (hen : s.is_enabled = true)
    (hcron : s.schedule_cron = some c)
    (hvalid : croniterNext c now = some t)
    (hdue : shouldRun s now = true)
    (hrun : s.agent_id ∉ running)
    (hreg : get_agent_class s.agent_id = none) :
    (∃ rec : AgentLog,
      rec.action = "scheduler_execute" ∧
      rec.status = "error" ∧
      rec.message = s!"Agent class not registered for ID {s.agent_id}" ∧
      executeAgent o bk s.agent_id tStart tEnd beh db running =
        (db.addLog rec, running.erase s.agent_id) ∧
      (db.addLog rec).logs = db.logs ++ [rec]) ∧
    (∃ pre suf, (tick now db running).2.2 =
        pre ++ TickEvent.persistNextRun s.agent_id (some t) ::
          TickEvent.addRunning s.agent_id :: TickEvent.dispatch s.agent_id :: suf) ∧
    (tick now db running).1.findSetting s.agent_id = some { s with next_run_at := some t } := by
  have hmem : s ∈ db.settings :=
    @List.mem_of_find?_eq_some AgentSetting (fun s2 => s2.agent_id == s.agent_id) _ db.settings hfind
  have hfil : s ∈ db.settings.filter (fun s2 => s2.is_enabled && s2.schedule_cron.isSome) := by
    rw [List.mem_filter]
    exact ⟨hmem, by simp [hen, hcron]⟩
  have hval : compute_next_run s.schedule_cron now = some t := by
    rw [hcron]
    exact hvalid
  obtain ⟨htr, hdb⟩ := tickAux_due_dispatch now _ db running s (hpair.filter _) hfil hfind hrun hdue
  rw [hval] at htr hdb
  refine ⟨⟨{ agent_id := s.agent_id, agent_name := s.agent_name,
             action := "scheduler_execute", status := "error",
             message := s!"Agent class not registered for ID {s.agent_id}",
             error_details := none, execution_time_ms := none, meta := [] },
      rfl, rfl, rfl, ?_, rfl⟩, htr, hdb⟩
  unfold executeAgent executeAgentBody
  rw [hfind, hreg]
  simp [hen, log_scheduler_error]

/-- Witness for C8: agent id 99 (absent from `AGENT_CLASS_MAP`), enabled
on `*/15 * * * *` with an overdue `next_run_at`, dispatched at time
1000. -/
theorem c8_unregistered_dispatch_witness :
    (∃ rec : AgentLog,
      rec.action = "scheduler_execute" ∧
      rec.status = "error" ∧
      rec.message = s!"Agent class not registered for ID 99" ∧
      executeAgent okOracle none 99 1000 1001 (.ok ⟨true, []⟩) unregisteredDb [] =
        (unregisteredDb.addLog rec, List.erase [] 99) ∧
      (unregisteredDb.addLog rec).logs = unregisteredDb.logs ++ [rec]) ∧
    (∃ pre suf, (tick 1000 unregisteredDb []).2.2 =
        pre ++ TickEvent.persistNextRun 99 (some 1800) ::
          TickEvent.addRunning 99 :: TickEvent.dispatch 99 :: suf) ∧
    (tick 1000 unregisteredDb []).1.findSetting 99 =
      some { unregisteredRow with next_run_at := some 1800 } :=
  c8_unregistered_dispatch okOracle none 1000 1800 1000 1001 (.ok ⟨true, []⟩)
    unregisteredDb [] unregisteredRow (.everyNMinutes 15)
    (by decide) (by decide) (by decide) (by decide) (by decide) (by decide)
    (by decide) (by decide)

/-- C9: caller-error reporting.  For an id with no stored config row,
`run_agent_now`, `enable_agent` and `disable_agent` each raise the
structured `HTTPException 404 "Agent not found"` synchronously and return
the database unchanged — in particular the audit log is untouched. -/
theorem c9_caller_errors (o : DbOracle) (agent_id tStart tEnd : Nat)
    (beh : Except String AgentResult) (db : DB)
    (hmissing : db.findSetting agent_id = none) :
    run_agent_now o agent_id tStart tEnd beh db =
      (.httpError 404 "Agent not found", db) ∧
    enable_agent agent_id db = (.httpError 404 "Agent not found", db) ∧
    disable_agent agent_id db = (.httpError 404 "Agent not found", db) := by
  unfold run_agent_now enable_agent disable_agent
  rw [hmissing]
  exact ⟨rfl, rfl, rfl⟩

/-- Witness for C9 at the missing id 42. -/
theorem c9_caller_errors_witness :
    run_agent_now okOracle 42 0 1 (.ok ⟨true, []⟩) disabledDb =
      (.httpError 404 "Agent not found", disabledDb) ∧
    enable_agent 42 disabledDb = (.httpError 404 "Agent not found", disabledDb) ∧
    disable_agent 42 disabledDb = (.httpError 404 "Agent not found", disabledDb) :=
  c9_caller_errors okOracle 42 0 1 (.ok ⟨true, []⟩) disabledDb (by decide)

/-- C10: for every enabled task whose `execute()` returns a dictionary
without raising, the wrapper appends exactly one audit record with
`status = success` and `metadata = result.data` — even when the returned
dictionary carries `success = false` — then updates `last_run_at`, and
passes the returned dictionary through unchanged. -/
theorem c10_success_record_reflects_return (o : DbOracle) (ho : o.logCommitFails = false)
    (agent_id : Nat) (agent_name : String) (tStart tEnd : Nat) (result : AgentResult) (db : DB)
    (hen : isEnabled o db agent_id = true) :
    ∃ rec : AgentLog,
      rec.action = "execute" ∧
      rec.status = "success" ∧
      rec.meta = result.data ∧
      rec.execution_time_ms = some ((tEnd - tStart) * 1000) ∧
      run o agent_id agent_name tStart tEnd (.ok result) db =
        .ok (updateLastRun o (db.addLog rec) agent_id tEnd, .taskResult result) ∧
      (db.addLog rec).logs = db.logs ++ [rec] := by
  refine ⟨{ agent_id := agent_id, agent_name := agent_name, action := "execute",
            status := "success", message := "Agent completed successfully",
            error_details := none, execution_time_ms := some ((tEnd - tStart) * 1000),
            meta := result.data }, rfl, rfl, rfl, rfl, ?_, rfl⟩
  simp [run, hen, logAgent, ho]

/-- Witness for C10: agent 1's body returns `success = false` with data;
the audit record still has `status = success` and carries that data, and
the dictionary is returned unchanged. -/
theorem c10_success_record_reflects_return_witness :
    ∃ rec : AgentLog,
      rec.action = "execute" ∧
      rec.status = "success" ∧
      rec.meta = [("leads", "0")] ∧
      rec.execution_time_ms = some ((107 - 100) * 1000) ∧
      run okOracle 1 "Lead Scraper" 100 107 (.ok ⟨false, [("leads", "0")]⟩) leadScraperDb =
        .ok (updateLastRun okOracle (leadScraperDb.addLog rec) 1 107,
          .taskResult ⟨false, [("leads", "0")]⟩) ∧
      (leadScraperDb.addLog rec).logs = leadScraperDb.logs ++ [rec] :=
  c10_success_record_reflects_return okOracle rfl 1 "Lead Scraper" 100 107
    ⟨false, [("leads", "0")]⟩ leadScraperDb (by decide)

end Summit
